import Mathlib

/-!
Verification of the SR-DATABASE server (src/server.ts): a shallow embedding of
its SQLite data model and HTTP handlers as pure Lean functions over an explicit
database state, together with theorems settling the specification claims.

Modelling conventions:
* Each SQLite table is a `List` of row structures; `AUTOINCREMENT` surrogate
  keys are tracked by explicit next-id counters on the state.
* `REAL` money columns only ever hold caller-supplied numbers that are added
  and subtracted, so they are modelled exactly as integers (`Int`); the trend
  percentage, the one place a division occurs, is computed in `ℚ`.
* SQL `TEXT` values are Lean `String`s; SQLite's binary collation is
  lexicographic comparison of the character lists (`charsLtB`).
* `NULL`able columns are `Option`s; SQLite `ASC` puts `NULL` before all
  non-`NULL` values, which the task-ordering comparator reflects.
* better-sqlite3 enforces foreign keys, so `ON DELETE CASCADE` is part of the
  semantics of every `DELETE FROM clients` statement.
* `db.transaction(...)` wrappers are atomic, which the embedding realises by
  making each handler a single total state transformation.
-/

/-! ### String primitives: SQLite binary collation and the JS split on comma -/

/-- Strict lexicographic comparison of character lists (SQLite's binary
collation of `TEXT` values, restricted to the strings this schema stores). -/
def charsLtB : List Char → List Char → Bool
  | [], [] => false
  | [], _ :: _ => true
  | _ :: _, [] => false
  | a :: as, b :: bs => if a < b then true else if b < a then false else charsLtB as bs

/-- Strict comparison of `TEXT` column values. -/
def strLtB (a b : String) : Bool := charsLtB a.data b.data

theorem charsLtB_asymm : ∀ (x y : List Char), charsLtB x y = true → charsLtB y x = false
  | [], [], h => by simp [charsLtB] at h
  | [], _ :: _, _ => by simp [charsLtB]
  | _ :: _, [], h => by simp [charsLtB] at h
  | a :: as, b :: bs, h => by
    simp only [charsLtB] at h ⊢
    by_cases hab : a < b
    · have hba : ¬ b < a := lt_asymm hab
      rw [if_neg hba, if_pos hab]
    · rw [if_neg hab] at h
      by_cases hba : b < a
      · rw [if_pos hba] at h
        simp at h
      · rw [if_neg hba] at h
        rw [if_neg hba, if_neg hab]
        exact charsLtB_asymm as bs h

theorem charsLtB_connex :
    ∀ (x y : List Char), charsLtB x y = false → charsLtB y x = false → x = y
  | [], [], _, _ => rfl
  | [], _ :: _, h, _ => by simp [charsLtB] at h
  | _ :: _, [], _, h => by simp [charsLtB] at h
  | a :: as, b :: bs, h₁, h₂ => by
    simp only [charsLtB] at h₁ h₂
    by_cases hab : a < b
    · simp [hab] at h₁
    · by_cases hba : b < a
      · simp [hab, hba] at h₂
      · simp only [if_neg hab, if_neg hba] at h₁ h₂
        have heq : a = b := le_antisymm (not_lt.mp hba) (not_lt.mp hab)
        rw [heq, charsLtB_connex as bs h₁ h₂]

theorem strLtB_asymm (x y : String) (h : strLtB x y = true) : strLtB y x = false :=
  charsLtB_asymm x.data y.data h

theorem strLtB_connex (x y : String) (h₁ : strLtB x y = false) (h₂ : strLtB y x = false) :
    x = y := by
  cases x with
  | mk dx =>
    cases y with
    | mk dy => exact congrArg String.mk (charsLtB_connex dx dy h₁ h₂)

/-- JavaScript's `s.split(',')` on the character list of `s`: split at every
comma, keeping empty pieces, always returning at least one piece. -/
def jsSplitL : List Char → List (List Char)
  | [] => [[]]
  | c :: rest =>
    if c = ',' then [] :: jsSplitL rest
    else
      match jsSplitL rest with
      | [] => [[c]]
      | p :: ps => (c :: p) :: ps

/-- SQLite `GROUP_CONCAT` joining with the default separator `,`. -/
def joinCommaL : List (List Char) → List Char
  | [] => []
  | [t] => t
  | t :: t₂ :: ts => t ++ ',' :: joinCommaL (t₂ :: ts)

theorem jsSplitL_ne_nil : ∀ (s : List Char), jsSplitL s ≠ []
  | [] => by simp [jsSplitL]
  | c :: rest => by
    simp only [jsSplitL]
    by_cases hc : c = ','
    · rw [if_pos hc]
      simp
    · rw [if_neg hc]
      cases h : jsSplitL rest with
      | nil => simp
      | cons p ps => simp

theorem length_jsSplitL : ∀ (s : List Char), (jsSplitL s).length = 1 + s.count ','
  | [] => by simp [jsSplitL]
  | c :: rest => by
    have ih := length_jsSplitL rest
    simp only [jsSplitL]
    by_cases hc : c = ','
    · subst hc
      rw [if_pos rfl, List.count_cons_self, List.length_cons]
      omega
    · rw [if_neg hc, List.count_cons_of_ne (Ne.symm hc)]
      cases h : jsSplitL rest with
      | nil => exact absurd h (jsSplitL_ne_nil rest)
      | cons p ps =>
        rw [h] at ih
        show ((c :: p) :: ps).length = 1 + List.count ',' rest
        simp only [List.length_cons] at ih ⊢
        omega

theorem count_joinCommaL :
    ∀ (ts : List (List Char)), ts ≠ [] →
      (joinCommaL ts).count ',' = (ts.length - 1) + (ts.map (fun t => t.count ',')).sum
  | [], h => absurd rfl h
  | [t], _ => by simp [joinCommaL]
  | t :: t₂ :: ts, _ => by
    have ih := count_joinCommaL (t₂ :: ts) (by simp)
    simp only [joinCommaL, List.count_append, List.count_cons, List.map_cons, List.sum_cons,
      List.length_cons, beq_self_eq_true, if_true] at ih ⊢
    omega

theorem joinCommaL_eq_nil_iff :
    ∀ (ts : List (List Char)), ts ≠ [] → ((joinCommaL ts = []) ↔ ts = [[]])
  | [], h => absurd rfl h
  | [t], _ => by simp [joinCommaL]
  | t :: t₂ :: ts, _ => by
    constructor
    · intro h
      simp only [joinCommaL] at h
      rcases List.append_eq_nil.mp h with ⟨_, h₂⟩
      simp at h₂
    · intro h
      simp at h

/-! ### The data model: one structure per table, one record for the database -/

/-- A row of the `clients` table. -/
structure ClientRow where
  id : Nat
  name : String
  email : Option String
  phone : Option String
  company : Option String
  notes : Option String
  managed_by : Option String
  status : String := "active"
  created_at : String
deriving DecidableEq

/-- A row of the `services` table. -/
structure ServiceRow where
  id : Nat
  client_id : Nat
  service_type : String
  price : Int := 0
deriving DecidableEq

/-- A row of the `payments` table. -/
structure PaymentRow where
  id : Nat
  client_id : Nat
  total_amount : Int
  advance_paid : Int
  remaining_balance : Int
  last_updated : String
deriving DecidableEq

/-- A row of the `tasks` table. -/
structure TaskRow where
  id : Nat
  client_id : Nat
  title : String
  assigned_to : Option String
  due_date : Option String
  status : String := "pending"
  created_at : String
deriving DecidableEq

/-- A row of the `transactions` ledger table. -/
structure TransactionRow where
  id : Nat
  client_id : Nat
  amount : Int
  type : String := "payment"
  created_at : String
deriving DecidableEq

/-- The whole SQLite database: the five tables plus the `AUTOINCREMENT`
next-rowid counter of each table. -/
structure DB where
  clients : List ClientRow
  services : List ServiceRow
  payments : List PaymentRow
  tasks : List TaskRow
  transactions : List TransactionRow
  nextClientId : Nat := 1
  nextServiceId : Nat := 1
  nextPaymentId : Nat := 1
  nextTaskId : Nat := 1
  nextTransactionId : Nat := 1
deriving DecidableEq

/-! ### A tiny stable sort, used to model SQL `ORDER BY` -/

/-- Insert into a sorted list, in front of the first element the comparator
does not place before `a`. -/
def insertSorted (le : α → α → Bool) (a : α) : List α → List α
  | [] => [a]
  | b :: bs => if le a b then a :: b :: bs else b :: insertSorted le a bs

/-- Insertion sort by a boolean comparator, modelling `ORDER BY`. -/
def sortByList (le : α → α → Bool) : List α → List α
  | [] => []
  | a :: as => insertSorted le a (sortByList le as)

theorem mem_insertSorted (le : α → α → Bool) (a x : α) :
    ∀ (l : List α), x ∈ insertSorted le a l ↔ x = a ∨ x ∈ l
  | [] => by simp [insertSorted]
  | b :: bs => by
    simp only [insertSorted]
    by_cases h : le a b = true
    · simp [h]
    · simp only [if_neg h, List.mem_cons, mem_insertSorted le a x bs]
      tauto

theorem mem_sortByList (le : α → α → Bool) (x : α) :
    ∀ (l : List α), x ∈ sortByList le l ↔ x ∈ l
  | [] => Iff.rfl
  | a :: as => by
    simp only [sortByList, mem_insertSorted, mem_sortByList le x as, List.mem_cons]

theorem chain'_insertSorted (le : α → α → Bool)
    (total : ∀ a b, le a b = true ∨ le b a = true) (a : α) :
    ∀ (l : List α), List.Chain' (fun x y => le x y = true) l →
      List.Chain' (fun x y => le x y = true) (insertSorted le a l)
  | [], _ => List.chain'_singleton a
  | b :: bs, h => by
    simp only [insertSorted]
    by_cases hab : le a b = true
    · rw [if_pos hab]
      exact List.chain'_cons.mpr ⟨hab, h⟩
    · rw [if_neg hab]
      have hba : le b a = true := (total a b).resolve_left hab
      have htail := chain'_insertSorted le total a bs h.tail
      cases bs with
      | nil =>
        simp only [insertSorted]
        exact List.chain'_cons.mpr ⟨hba, List.chain'_singleton a⟩
      | cons d ds =>
        simp only [insertSorted] at htail ⊢
        by_cases had : le a d = true
        · rw [if_pos had] at htail ⊢
          exact List.chain'_cons.mpr ⟨hba, htail⟩
        · rw [if_neg had] at htail ⊢
          exact List.chain'_cons.mpr ⟨h.rel_head, htail⟩

theorem chain'_sortByList (le : α → α → Bool)
    (total : ∀ a b, le a b = true ∨ le b a = true) :
    ∀ (l : List α), List.Chain' (fun x y => le x y = true) (sortByList le l)
  | [] => List.chain'_nil
  | a :: as => chain'_insertSorted le total a (sortByList le as) (chain'_sortByList le total as)

/-! ### `GET /api/clients`: the list query with GROUP_CONCAT and the JS split -/

/-- One row of the `GET /api/clients` response: the client's columns, the
`services` string split into an array, the joined payment columns (absent when
the `LEFT JOIN` finds no payment row), and the pending-task count. -/
structure ClientView where
  client : ClientRow
  services : List String
  payment : Option PaymentRow
  pending_tasks : Nat
deriving DecidableEq

/-- The `service_type` values of a client's service rows, in table order. -/
def serviceTypesOf (db : DB) (cid : Nat) : List String :=
  (db.services.filter (fun s => s.client_id == cid)).map (fun s => s.service_type)

/-- `SELECT GROUP_CONCAT(service_type) FROM services WHERE client_id = c.id`:
`NULL` on no rows, otherwise the values joined with commas. -/
def groupConcatTypes (ts : List String) : Option (List Char) :=
  match ts with
  | [] => none
  | _ => some (joinCommaL (ts.map String.data))

/-- The JS post-processing `c.services ? c.services.split(',') : []`; note a
`NULL` and an empty string are both falsy in JavaScript. -/
def servicesArr (gc : Option (List Char)) : List String :=
  match gc with
  | none => []
  | some s => if s = [] then [] else (jsSplitL s).map String.mk

/-- `SELECT COUNT(*) FROM tasks WHERE client_id = c.id AND status = 'pending'`. -/
def pendingCount (db : DB) (cid : Nat) : Nat :=
  (db.tasks.filter (fun t => t.client_id == cid && t.status == "pending")).length

/-- The response rows contributed by one client: one per joined payment row,
or a single row with `NULL` payment columns when it has none. -/
def clientViewsFor (db : DB) (c : ClientRow) : List ClientView :=
  let svc := servicesArr (groupConcatTypes (serviceTypesOf db c.id))
  let pend := pendingCount db c.id
  match db.payments.filter (fun p => p.client_id == c.id) with
  | [] => [⟨c, svc, none, pend⟩]
  | p :: ps => (p :: ps).map (fun q => ⟨c, svc, some q, pend⟩)

/-- `ORDER BY c.created_at DESC` as a boolean comparator. -/
def clientDescLE (a b : ClientRow) : Bool := !(strLtB a.created_at b.created_at)

/-- The `GET /api/clients` handler. -/
def listClients (db : DB) : List ClientView :=
  (sortByList clientDescLE db.clients).flatMap (fun c => clientViewsFor db c)

/-! ### `GET /api/tasks`: join, optional filter, ORDER BY -/

/-- One row of the `GET /api/tasks` response: the task joined with its
client's name. -/
structure TaskView where
  task : TaskRow
  client_name : String
deriving DecidableEq

/-- The strict part of `ORDER BY t.due_date ASC, t.created_at DESC` under
SQLite semantics: `NULL` sorts before every non-`NULL` value in `ASC`. -/
def taskKeyLt (a b : TaskView) : Bool :=
  match a.task.due_date, b.task.due_date with
  | none, none => strLtB b.task.created_at a.task.created_at
  | none, some _ => true
  | some _, none => false
  | some x, some y =>
    if strLtB x y then true
    else if strLtB y x then false
    else strLtB b.task.created_at a.task.created_at

/-- `a` may be placed no later than `b` in the task ordering. -/
def taskLE (a b : TaskView) : Bool := !(taskKeyLt b a)

/-- The `GET /api/tasks` handler: inner join with `clients`, optional
`WHERE t.client_id = ?`, then the `ORDER BY`. -/
def listTasks (db : DB) (clientId : Option Nat) : List TaskView :=
  let joined := db.tasks.flatMap (fun t =>
    (db.clients.filter (fun c => c.id == t.client_id)).map (fun c => ⟨t, c.name⟩))
  let filtered :=
    match clientId with
    | none => joined
    | some cid => joined.filter (fun v => v.task.client_id == cid)
  sortByList taskLE filtered

/-! ### `POST /api/clients` -/

/-- The loop `for (const service of services) serviceStmt.run(clientId, service)`:
one service row per requested type, with consecutive fresh ids. -/
def insertServices (clientId startId : Nat) : List String → List ServiceRow
  | [] => []
  | s :: rest =>
    { id := startId, client_id := clientId, service_type := s } ::
      insertServices clientId (startId + 1) rest

/-- The `POST /api/clients` handler: inside one transaction, insert the client
row, one service row per requested type, and the payment row with
`remaining_balance = total_amount - advance_paid`; returns the new client id. -/
def createClient (db : DB) (name : String) (email phone company notes managed_by : Option String)
    (services : List String) (total_amount advance_paid : Int) (now : String) : DB × Nat :=
  let clientId := db.nextClientId
  let remaining := total_amount - advance_paid
  ({ db with
      clients := db.clients ++ [{ id := clientId, name := name, email := email,
                                  phone := phone, company := company, notes := notes,
                                  managed_by := managed_by, created_at := now }],
      services := db.services ++ insertServices clientId db.nextServiceId services,
      payments := db.payments ++ [{ id := db.nextPaymentId, client_id := clientId,
                                    total_amount := total_amount, advance_paid := advance_paid,
                                    remaining_balance := remaining, last_updated := now }],
      nextClientId := clientId + 1,
      nextServiceId := db.nextServiceId + services.length,
      nextPaymentId := db.nextPaymentId + 1 },
    clientId)

/-! ### `DELETE /api/clients/:id` -/

/-- The `DELETE /api/clients/:id` handler: `DELETE FROM clients WHERE id = ?`,
whose `ON DELETE CASCADE` foreign keys also remove the deleted client's
services, payments, tasks and transactions. -/
def deleteClient (db : DB) (clientId : Nat) : DB :=
  let deleted := (db.clients.filter (fun c => c.id == clientId)).map (fun c => c.id)
  { db with
    clients := db.clients.filter (fun c => !(c.id == clientId)),
    services := db.services.filter (fun s => !(deleted.contains s.client_id)),
    payments := db.payments.filter (fun p => !(deleted.contains p.client_id)),
    tasks := db.tasks.filter (fun t => !(deleted.contains t.client_id)),
    transactions := db.transactions.filter (fun t => !(deleted.contains t.client_id)) }

/-! ### `PATCH /api/clients/:id` -/

/-- The `PATCH /api/clients/:id` handler: inside one transaction, update the
scalar columns, and when a services list is supplied (any array is truthy),
delete all of the client's service rows and reinsert the supplied list. -/
def updateClient (db : DB) (clientId : Nat) (name : String)
    (email phone company notes managed_by : Option String)
    (services : Option (List String)) : DB :=
  let clients1 := db.clients.map (fun c =>
    if c.id == clientId then
      { c with name := name, email := email, phone := phone, company := company,
               notes := notes, managed_by := managed_by }
    else c)
  let db1 := { db with clients := clients1 }
  match services with
  | none => db1
  | some svcs =>
    { db1 with
      services := db1.services.filter (fun s => !(s.client_id == clientId)) ++
        insertServices clientId db.nextServiceId svcs,
      nextServiceId := db.nextServiceId + svcs.length }

/-! ### `PATCH /api/payments/:clientId` -/

/-- The two outcomes of the payment handler: the explicit 404 when no payment
row exists for the client, and the `{success:true}` response. -/
inductive PayResp
  | notFound
  | success
deriving DecidableEq

/-- The `PATCH /api/payments/:clientId` handler: look up the first payment row
of the client (404 when none); otherwise, inside one transaction, overwrite
`advance_paid` with the supplied absolute value, recompute
`remaining_balance` from the looked-up `total_amount`, refresh `last_updated`,
and, when `amount_added` is truthy and strictly positive, append one ledger
row (with the default ledger row kind). -/
def updatePayment (db : DB) (clientId : Nat) (advance_paid : Int)
    (amount_added : Option Int) (now : String) : PayResp × DB :=
  match db.payments.find? (fun p => p.client_id == clientId) with
  | none => (.notFound, db)
  | some payment =>
    let remaining := payment.total_amount - advance_paid
    let db1 := { db with
      payments := db.payments.map (fun p =>
        if p.client_id == clientId then
          { p with advance_paid := advance_paid, remaining_balance := remaining,
                   last_updated := now }
        else p) }
    let db2 :=
      match amount_added with
      | none => db1
      | some a =>
        if a ≠ 0 ∧ 0 < a then
          { db1 with
            transactions := db1.transactions ++
              [{ id := db.nextTransactionId, client_id := clientId, amount := a,
                 created_at := now }],
            nextTransactionId := db.nextTransactionId + 1 }
        else db1
    (.success, db2)

/-! ### `GET /api/backup` and `POST /api/restore` -/

/-- The JSON document produced by `GET /api/backup`: every row of the four
primary tables, a timestamp and the format version tag. The `transactions`
ledger is not part of the document. -/
structure Snapshot where
  clients : List ClientRow
  services : List ServiceRow
  payments : List PaymentRow
  tasks : List TaskRow
  timestamp : String
  version : String
deriving DecidableEq

/-- The `GET /api/backup` handler. -/
def backup (db : DB) (now : String) : Snapshot :=
  { clients := db.clients, services := db.services, payments := db.payments,
    tasks := db.tasks, timestamp := now, version := "1.0" }

/-- `DELETE FROM clients` with no `WHERE`: every client row is deleted, and the
`ON DELETE CASCADE` foreign keys remove every dependent row referencing any of
the deleted ids from the other four tables. -/
def deleteAllClients (db : DB) : DB :=
  let deleted := db.clients.map (fun c => c.id)
  { db with
    clients := [],
    services := db.services.filter (fun s => !(deleted.contains s.client_id)),
    payments := db.payments.filter (fun p => !(deleted.contains p.client_id)),
    tasks := db.tasks.filter (fun t => !(deleted.contains t.client_id)),
    transactions := db.transactions.filter (fun t => !(deleted.contains t.client_id)) }

/-- `INSERT` with an explicit rowid bumps the table's `AUTOINCREMENT`
sequence to the largest id seen. -/
def bumpNext (next : Nat) (ids : List Nat) : Nat :=
  ids.foldl (fun n i => max n (i + 1)) next

/-- The `POST /api/restore` handler: inside one transaction, delete all rows
from `tasks`, `payments`, `services`, then `clients` (the last cascading into
`transactions`), then reinsert every snapshot row with its original id. -/
def restore (db : DB) (snap : Snapshot) : DB :=
  let db1 := { db with tasks := [] }
  let db2 := { db1 with payments := [] }
  let db3 := { db2 with services := [] }
  let db4 := deleteAllClients db3
  { db4 with
    clients := db4.clients ++ snap.clients,
    services := db4.services ++ snap.services,
    payments := db4.payments ++ snap.payments,
    tasks := db4.tasks ++ snap.tasks,
    nextClientId := bumpNext db4.nextClientId (snap.clients.map (fun c => c.id)),
    nextServiceId := bumpNext db4.nextServiceId (snap.services.map (fun s => s.id)),
    nextPaymentId := bumpNext db4.nextPaymentId (snap.payments.map (fun p => p.id)),
    nextTaskId := bumpNext db4.nextTaskId (snap.tasks.map (fun t => t.id)) }

/-! ### `GET /api/stats`: aggregate sums and the trend strings -/

/-- The per-join-row values of one payment column over
`clients c LEFT JOIN payments p`, restricted to clients satisfying `pred`;
clients without a payment row contribute a `NULL`, which `SUM` ignores. -/
def paymentVals (db : DB) (pred : ClientRow → Bool) (f : PaymentRow → Int) : List Int :=
  (db.clients.filter pred).flatMap (fun c =>
    (db.payments.filter (fun p => p.client_id == c.id)).map f)

/-- SQL `SUM`: `NULL` when there is no value to add, else the total. -/
def sqlSum (l : List Int) : Option Int :=
  match l with
  | [] => none
  | _ => some (l.foldl (· + ·) 0)

/-- Renders a nonnegative rational rounded to one decimal digit, as JavaScript
`toFixed(1)` does after extracting the sign. -/
def fixedOneDigit (q : ℚ) : String :=
  let n := (10 * q + 1 / 2).floor.toNat
  toString (n / 10) ++ "." ++ toString (n % 10)

/-- JavaScript `Number.prototype.toFixed(1)`: a leading minus for negative
inputs, then the rounded magnitude with one decimal digit. -/
def toFixed1 (q : ℚ) : String :=
  if q < 0 then "-" ++ fixedOneDigit (-q) else fixedOneDigit q

/-- The `calculateTrend` closure of the stats handler. -/
def calculateTrend (current prev : ℚ) : String :=
  if prev = 0 then "+100%"
  else
    let diff := (current - prev) / prev * 100
    (if 0 ≤ diff then "+" else "") ++ toFixed1 diff ++ "%"

/-- The `revenue.trend` field of `GET /api/stats`: `calculateTrend` applied to
the overall and before-cutoff sums of `total_amount`, with SQL `NULL`
coalesced to `0` by the JS `|| 0`. -/
def statsRevenueTrend (db : DB) (cutoff : String) : String :=
  calculateTrend
    (((sqlSum (paymentVals db (fun _ => true) (fun p => p.total_amount))).getD 0 : Int) : ℚ)
    (((sqlSum (paymentVals db (fun c => strLtB c.created_at cutoff)
        (fun p => p.total_amount))).getD 0 : Int) : ℚ)

/-- The `received.trend` field of `GET /api/stats`, likewise over
`advance_paid`. -/
def statsReceivedTrend (db : DB) (cutoff : String) : String :=
  calculateTrend
    (((sqlSum (paymentVals db (fun _ => true) (fun p => p.advance_paid))).getD 0 : Int) : ℚ)
    (((sqlSum (paymentVals db (fun c => strLtB c.created_at cutoff)
        (fun p => p.advance_paid))).getD 0 : Int) : ℚ)

/-- Modelled from the spec: "Trend percentage = (current − previous) / previous
× 100, formatted with an explicit sign and one decimal place and a percent
suffix; if previous is zero or absent, trend is reported as +100%
unconditionally." -/
def specTrend (current : ℚ) (prev : Option ℚ) : String :=
  match prev with
  | none => "+100%"
  | some p =>
    if p = 0 then "+100%"
    else
      let d := (current - p) / p * 100
      (if d < 0 then "-" else "+") ++ fixedOneDigit |d| ++ "%"

/-! ### Concrete database states used to instantiate the theorems -/

/-- A sample client row. -/
def exClient1 : ClientRow :=
  { id := 1, name := "A", email := none, phone := none, company := none,
    notes := none, managed_by := none, created_at := "2024-01-01 00:00:00" }

/-- A sample payment row for client 1. -/
def exPay : PaymentRow :=
  { id := 1, client_id := 1, total_amount := 1000, advance_paid := 100,
    remaining_balance := 900, last_updated := "t0" }

/-- A sample task without a due date, created later. -/
def exTaskNull : TaskRow :=
  { id := 1, client_id := 1, title := "follow up", assigned_to := none,
    due_date := none, created_at := "2024-01-02 00:00:00" }

/-- A sample task with a due date, created earlier. -/
def exTaskDated : TaskRow :=
  { id := 2, client_id := 1, title := "deliver", assigned_to := none,
    due_date := some "2024-03-01", created_at := "2024-01-01 00:00:00" }

/-- An empty database. -/
def exDbEmpty : DB :=
  { clients := [], services := [], payments := [], tasks := [], transactions := [] }

/-- One client whose ledger holds one transaction row. -/
def exDbLedger : DB :=
  { clients := [exClient1], services := [], payments := [], tasks := [],
    transactions := [{ id := 1, client_id := 1, amount := 50,
                       created_at := "2024-01-02 00:00:00" }],
    nextClientId := 2, nextTransactionId := 2 }

/-- One client with a payment row of total 1000 and advance 100. -/
def exDbPay : DB :=
  { clients := [exClient1], services := [], payments := [exPay], tasks := [],
    transactions := [], nextClientId := 2, nextPaymentId := 2 }

/-- One client with the two sample tasks. -/
def exDbTasks : DB :=
  { clients := [exClient1], services := [], payments := [], tasks := [exTaskNull, exTaskDated],
    transactions := [], nextClientId := 2, nextTaskId := 3 }

/-- One client with a single service row whose service_type is the empty string. -/
def exDbSvcEmpty : DB :=
  { clients := [exClient1], services := [{ id := 1, client_id := 1, service_type := "" }],
    payments := [], tasks := [], transactions := [], nextClientId := 2, nextServiceId := 2 }

/-- One client with one ordinary service row, one payment row and one task. -/
def exDbFull : DB :=
  { clients := [exClient1], services := [{ id := 1, client_id := 1, service_type := "web" }],
    payments := [exPay], tasks := [exTaskNull], transactions := [],
    nextClientId := 2, nextServiceId := 2, nextPaymentId := 2, nextTaskId := 2 }

/-! ### Helper lemmas about the embedded operations -/

theorem insertServices_map_client_id (cid : Nat) :
    ∀ (st : Nat) (l : List String),
      (insertServices cid st l).map (fun s => s.client_id) = List.replicate l.length cid
  | _, [] => rfl
  | st, s :: rest => by
    simp only [insertServices, List.map_cons, List.length_cons, List.replicate_succ,
      insertServices_map_client_id cid (st + 1) rest]

theorem insertServices_map_service_type (cid : Nat) :
    ∀ (st : Nat) (l : List String),
      (insertServices cid st l).map (fun s => s.service_type) = l
  | _, [] => rfl
  | st, s :: rest => by
    simp only [insertServices, List.map_cons,
      insertServices_map_service_type cid (st + 1) rest]

theorem insertServices_filter_self (cid : Nat) :
    ∀ (st : Nat) (l : List String),
      (insertServices cid st l).filter (fun s => s.client_id == cid) = insertServices cid st l
  | _, [] => rfl
  | st, s :: rest => by
    simp only [insertServices, List.filter_cons]
    simp [insertServices_filter_self cid (st + 1) rest]

theorem filter_not_filter (p : α → Bool) (l : List α) :
    (l.filter (fun a => !(p a))).filter p = [] := by
  induction l with
  | nil => rfl
  | cons a as ih =>
    simp only [List.filter_cons]
    cases hp : p a <;> simp [hp, ih]

theorem filter_not_idem (p : α → Bool) (l : List α) :
    (l.filter (fun a => !(p a))).filter (fun a => !(p a)) = l.filter (fun a => !(p a)) := by
  induction l with
  | nil => rfl
  | cons a as ih =>
    simp only [List.filter_cons]
    cases hp : p a <;> simp [hp, ih]

/-! ### C3: client creation -/

/-- C3: `POST /api/clients` with N service types, total T and advance A is one
atomic state change producing exactly one new client row (status "active"),
exactly N new service rows all linked to the fresh client id carrying exactly
the requested types, and exactly one new payment row with
`remaining_balance = T − A`; tasks and transactions are untouched and the
fresh client id is returned. -/
theorem createClient_spec (db : DB) (name : String)
    (email phone company notes managed_by : Option String)
    (services : List String) (T A : Int) (now : String) :
    (createClient db name email phone company notes managed_by services T A now).2 =
        db.nextClientId
    ∧ (createClient db name email phone company notes managed_by services T A now).1.clients =
        db.clients ++ [{ id := db.nextClientId, name := name, email := email, phone := phone,
                         company := company, notes := notes, managed_by := managed_by,
                         status := "active", created_at := now }]
    ∧ (createClient db name email phone company notes managed_by services T A now).1.services.map
          (fun s => s.client_id) =
        db.services.map (fun s => s.client_id) ++ List.replicate services.length db.nextClientId
    ∧ (createClient db name email phone company notes managed_by services T A now).1.services.map
          (fun s => s.service_type) =
        db.services.map (fun s => s.service_type) ++ services
    ∧ (createClient db name email phone company notes managed_by services T A now).1.payments =
        db.payments ++ [{ id := db.nextPaymentId, client_id := db.nextClientId,
                          total_amount := T, advance_paid := A,
                          remaining_balance := T - A, last_updated := now }]
    ∧ (createClient db name email phone company notes managed_by services T A now).1.tasks =
        db.tasks
    ∧ (createClient db name email phone company notes managed_by services T A now).1.transactions =
        db.transactions := by
  refine ⟨rfl, rfl, ?_, ?_, rfl, rfl, rfl⟩
  · simp [createClient, insertServices_map_client_id]
  · simp [createClient, insertServices_map_service_type]

/-! ### C4: backup/restore round trip -/

/-- C4: for any database state, restoring the backup document (into any
intermediate state) reproduces the four primary tables row for row, ids
included; and the backup document is independent of the transactions ledger,
which it excludes. -/
theorem backup_restore_roundtrip (db db₂ : DB) (now : String) :
    (restore db₂ (backup db now)).clients = db.clients
    ∧ (restore db₂ (backup db now)).services = db.services
    ∧ (restore db₂ (backup db now)).payments = db.payments
    ∧ (restore db₂ (backup db now)).tasks = db.tasks
    ∧ ∀ tx : List TransactionRow, backup { db with transactions := tx } now = backup db now := by
  refine ⟨?_, ?_, ?_, ?_, fun tx => rfl⟩ <;> simp [restore, backup, deleteAllClients]

/-! ### C5: what restore does to the transactions ledger -/

/-- The claim that restore leaves the transactions table exactly as it was is
false: restoring this one-client database's own backup deletes its ledger row,
because `DELETE FROM clients` cascades into `transactions`. -/
theorem restore_clears_ledger_counterex :
    (restore exDbLedger (backup exDbLedger "2024-02-01 00:00:00")).transactions = []
    ∧ exDbLedger.transactions ≠ [] := by
  constructor
  · rfl
  · decide

/-- C5 (amended): restore atomically replaces the four primary tables with the
snapshot rows, ids preserved, and runs no statement against the transactions
table itself — but its `DELETE FROM clients` cascades into the ledger, deleting
exactly the transaction rows that reference a pre-restore client id and keeping
the rest. -/
theorem restore_replaces_tables_and_cascades_ledger (db : DB) (snap : Snapshot) :
    (restore db snap).tasks = snap.tasks
    ∧ (restore db snap).payments = snap.payments
    ∧ (restore db snap).services = snap.services
    ∧ (restore db snap).clients = snap.clients
    ∧ (restore db snap).transactions =
        db.transactions.filter
          (fun t => !((db.clients.map (fun c => c.id)).contains t.client_id)) := by
  refine ⟨?_, ?_, ?_, ?_, ?_⟩ <;> simp [restore, deleteAllClients]

/-! ### C1 and C7: the payment PATCH -/

theorem find?_map_if (pred : α → Bool) (f : α → α) (hf : ∀ a, pred (f a) = pred a) :
    ∀ (l : List α) (x : α), l.find? pred = some x →
      (l.map (fun a => if pred a then f a else a)).find? pred = some (f x)
  | [], x, h => by simp at h
  | a :: as, x, h => by
    simp only [List.map_cons]
    by_cases hp : pred a = true
    · rw [List.find?_cons_of_pos _ hp] at h
      injection h with h
      subst h
      rw [if_pos hp]
      exact List.find?_cons_of_pos _ (by rw [hf]; exact hp)
    · rw [List.find?_cons_of_neg _ hp] at h
      rw [if_neg hp, List.find?_cons_of_neg _ hp]
      exact find?_map_if pred f hf as x h

theorem map_map_if_eq (g : α → β) (pred : α → Bool) (f : α → α)
    (hg : ∀ a, g (f a) = g a) (l : List α) :
    (l.map (fun a => if pred a then f a else a)).map g = l.map g := by
  induction l with
  | nil => rfl
  | cons a as ih =>
    simp only [List.map_cons, ih]
    by_cases hp : pred a = true
    · rw [if_pos hp, hg]
    · rw [if_neg hp]

/-- C1: when the client has a payment row (the looked-up one, with total T),
the payment PATCH succeeds and, in one atomic step, overwrites that row's
`advance_paid` with the supplied absolute value A (replacing, not
accumulating), sets its `remaining_balance` to T − A, refreshes its
`last_updated`, leaves every `total_amount` unchanged, appends exactly one
ledger row (with the supplied amount and the default row kind "payment")
precisely when `amount_added` is supplied and strictly positive — zero or
absent appends none — and touches no other table. -/
theorem updatePayment_spec (db : DB) (cid : Nat) (A : Int) (o : Option Int)
    (now : String) (pay : PaymentRow)
    (h : db.payments.find? (fun p => p.client_id == cid) = some pay) :
    (updatePayment db cid A o now).1 = PayResp.success
    ∧ (updatePayment db cid A o now).2.payments.find? (fun p => p.client_id == cid) =
        some { pay with advance_paid := A, remaining_balance := pay.total_amount - A,
                        last_updated := now }
    ∧ (updatePayment db cid A o now).2.payments.map (fun p => p.total_amount) =
        db.payments.map (fun p => p.total_amount)
    ∧ (updatePayment db cid A o now).2.transactions =
        db.transactions ++
          (match o with
           | none => []
           | some a =>
             if 0 < a then
               [{ id := db.nextTransactionId, client_id := cid, amount := a,
                  created_at := now }]
             else [])
    ∧ (updatePayment db cid A o now).2.clients = db.clients
    ∧ (updatePayment db cid A o now).2.services = db.services
    ∧ (updatePayment db cid A o now).2.tasks = db.tasks := by
  have htx : (updatePayment db cid A o now).2.transactions =
      db.transactions ++
        (match o with
         | none => []
         | some a =>
           if 0 < a then
             [{ id := db.nextTransactionId, client_id := cid, amount := a,
                created_at := now }]
           else []) := by
    cases o with
    | none => simp [updatePayment, h]
    | some a =>
      by_cases ha : 0 < a
      · have ha' : a ≠ 0 ∧ 0 < a := ⟨ne_of_gt ha, ha⟩
        simp [updatePayment, h, ha, ha']
      · have ha' : ¬(a ≠ 0 ∧ 0 < a) := fun hc => ha hc.2
        simp [updatePayment, h, ha, ha']
  have hpay : (updatePayment db cid A o now).2.payments =
      db.payments.map (fun p =>
        if p.client_id == cid then
          { p with advance_paid := A, remaining_balance := pay.total_amount - A,
                   last_updated := now }
        else p) := by
    cases o with
    | none => simp [updatePayment, h]
    | some a => by_cases ha : a ≠ 0 ∧ 0 < a <;> simp [updatePayment, h, ha]
  have hresp : (updatePayment db cid A o now).1 = PayResp.success := by
    cases o with
    | none => simp [updatePayment, h]
    | some a => by_cases ha : a ≠ 0 ∧ 0 < a <;> simp [updatePayment, h, ha]
  have hcl : (updatePayment db cid A o now).2.clients = db.clients := by
    cases o with
    | none => simp [updatePayment, h]
    | some a => by_cases ha : a ≠ 0 ∧ 0 < a <;> simp [updatePayment, h, ha]
  have hsv : (updatePayment db cid A o now).2.services = db.services := by
    cases o with
    | none => simp [updatePayment, h]
    | some a => by_cases ha : a ≠ 0 ∧ 0 < a <;> simp [updatePayment, h, ha]
  have htk : (updatePayment db cid A o now).2.tasks = db.tasks := by
    cases o with
    | none => simp [updatePayment, h]
    | some a => by_cases ha : a ≠ 0 ∧ 0 < a <;> simp [updatePayment, h, ha]
  refine ⟨hresp, ?_, ?_, htx, hcl, hsv, htk⟩
  · rw [hpay]
    exact find?_map_if (fun p => p.client_id == cid)
      (fun p => { p with advance_paid := A, remaining_balance := pay.total_amount - A,
                         last_updated := now })
      (fun p => rfl) db.payments pay h
  · rw [hpay]
    exact map_map_if_eq (fun p => p.total_amount) (fun p => p.client_id == cid)
      (fun p => { p with advance_paid := A, remaining_balance := pay.total_amount - A,
                         last_updated := now })
      (fun p => rfl) db.payments

/-- Witness for C1 at a concrete input: total 1000, new absolute advance 400,
amount_added 400. -/
theorem updatePayment_spec_witness :
    (updatePayment exDbPay 1 400 (some 400) "t1").1 = PayResp.success
    ∧ (updatePayment exDbPay 1 400 (some 400) "t1").2.payments.find?
          (fun p => p.client_id == 1) =
        some { exPay with advance_paid := 400,
                          remaining_balance := exPay.total_amount - 400,
                          last_updated := "t1" }
    ∧ (updatePayment exDbPay 1 400 (some 400) "t1").2.transactions =
        exDbPay.transactions ++
          [{ id := exDbPay.nextTransactionId, client_id := 1, amount := 400,
             created_at := "t1" }] := by
  have h : exDbPay.payments.find? (fun p => p.client_id == 1) = some exPay := by decide
  have main := updatePayment_spec exDbPay 1 400 (some 400) "t1" exPay h
  refine ⟨main.1, main.2.1, ?_⟩
  have := main.2.2.2.1
  simpa using this

/-- C7: the payment PATCH responds 404 exactly when no payment row exists for
the requested client id, and in that case the database is left unchanged;
when a row exists it responds success. -/
theorem updatePayment_notFound_iff (db : DB) (cid : Nat) (A : Int) (o : Option Int)
    (now : String) :
    ((updatePayment db cid A o now).1 = PayResp.notFound ↔
        ∀ p ∈ db.payments, p.client_id ≠ cid)
    ∧ ((updatePayment db cid A o now).1 = PayResp.notFound →
        (updatePayment db cid A o now).2 = db)
    ∧ ((∃ p ∈ db.payments, p.client_id = cid) →
        (updatePayment db cid A o now).1 = PayResp.success) := by
  cases hf : db.payments.find? (fun p => p.client_id == cid) with
  | none =>
    have h1 : (updatePayment db cid A o now).1 = PayResp.notFound := by
      simp [updatePayment, hf]
    have h2 : (updatePayment db cid A o now).2 = db := by
      simp [updatePayment, hf]
    have hnone : ∀ p ∈ db.payments, p.client_id ≠ cid := by
      intro p hp
      have := List.find?_eq_none.mp hf p hp
      simpa using this
    exact ⟨iff_of_true h1 hnone, fun _ => h2,
      fun ⟨p, hp, hpc⟩ => absurd hpc (hnone p hp)⟩
  | some pay =>
    have h1 : (updatePayment db cid A o now).1 = PayResp.success := by
      cases o with
      | none => simp [updatePayment, hf]
      | some a => by_cases ha : a ≠ 0 ∧ 0 < a <;> simp [updatePayment, hf, ha]
    have hmem : pay ∈ db.payments := List.mem_of_find?_eq_some hf
    have hpc : pay.client_id = cid := by
      have := List.find?_some hf
      simpa using this
    refine ⟨iff_of_false (by rw [h1]; simp) (fun hall => hall pay hmem hpc), ?_, fun _ => h1⟩
    intro hcontra
    rw [h1] at hcontra
    cases hcontra

/-- Witness for C7 at a concrete input: the empty database has no payment row
for client 5, so the PATCH is a 404 no-op. -/
theorem updatePayment_notFound_witness :
    (updatePayment exDbEmpty 5 400 none "t1").1 = PayResp.notFound
    ∧ (updatePayment exDbEmpty 5 400 none "t1").2 = exDbEmpty := by
  have main := updatePayment_notFound_iff exDbEmpty 5 400 none "t1"
  have h404 : (updatePayment exDbEmpty 5 400 none "t1").1 = PayResp.notFound :=
    main.1.mpr (by intro p hp; cases hp)
  exact ⟨h404, main.2.1 h404⟩

/-! ### C2 and C6: client deletion and service replacement -/

theorem contains_iff_mem_nat (l : List Nat) (a : Nat) : l.contains a = true ↔ a ∈ l := by
  induction l with
  | nil => simp
  | cons b bs ih =>
    simp only [List.contains_cons, Bool.or_eq_true, beq_iff_eq, ih, List.mem_cons]

theorem insertServices_filter_ne (cid : Nat) :
    ∀ (st : Nat) (l : List String),
      (insertServices cid st l).filter (fun s => !(s.client_id == cid)) = []
  | _, [] => rfl
  | st, s :: rest => by
    simp only [insertServices, List.filter_cons]
    simp [insertServices_filter_ne cid (st + 1) rest]

theorem mem_clientViewsFor (db : DB) (c : ClientRow) (v : ClientView)
    (hv : v ∈ clientViewsFor db c) :
    v.client = c ∧ v.services = servicesArr (groupConcatTypes (serviceTypesOf db c.id)) := by
  simp only [clientViewsFor] at hv
  split at hv
  · simp only [List.mem_singleton] at hv
    subst hv
    exact ⟨rfl, rfl⟩
  · simp only [List.mem_map] at hv
    rcases hv with ⟨q, _, rfl⟩
    exact ⟨rfl, rfl⟩

theorem mem_listClients (db : DB) (v : ClientView) (hv : v ∈ listClients db) :
    v.client ∈ db.clients
    ∧ v.services = servicesArr (groupConcatTypes (serviceTypesOf db v.client.id)) := by
  unfold listClients at hv
  rcases List.mem_flatMap.mp hv with ⟨c, hc, hvc⟩
  have hc' : c ∈ db.clients := (mem_sortByList clientDescLE c db.clients).mp hc
  rcases mem_clientViewsFor db c v hvc with ⟨h1, h2⟩
  subst h1
  exact ⟨hc', h2⟩

/-- C2: after deleting an existing client, it no longer appears in the
`GET /api/clients` response, and no service, payment, or task row referencing
its id remains in the database (the delete cascades). -/
theorem deleteClient_cascade (db : DB) (cid : Nat)
    (h : db.clients.any (fun c => c.id == cid) = true) :
    (∀ v ∈ listClients (deleteClient db cid), v.client.id ≠ cid)
    ∧ (∀ s ∈ (deleteClient db cid).services, s.client_id ≠ cid)
    ∧ (∀ p ∈ (deleteClient db cid).payments, p.client_id ≠ cid)
    ∧ (∀ t ∈ (deleteClient db cid).tasks, t.client_id ≠ cid) := by
  have hdel : ((db.clients.filter (fun c => c.id == cid)).map (fun c => c.id)).contains cid
      = true := by
    rcases List.any_eq_true.mp h with ⟨c, hc, hcid⟩
    have hcid' : c.id = cid := by simpa using hcid
    refine (contains_iff_mem_nat _ _).mpr ?_
    exact List.mem_map.mpr ⟨c, List.mem_filter.mpr ⟨hc, hcid⟩, hcid'⟩
  have key : ∀ x : Nat,
      ((db.clients.filter (fun c => c.id == cid)).map (fun c => c.id)).contains x = false →
        x ≠ cid := by
    intro x hx hxe
    subst hxe
    rw [hdel] at hx
    cases hx
  refine ⟨?_, ?_, ?_, ?_⟩
  · intro v hv
    have hm := (mem_listClients _ v hv).1
    simp only [deleteClient] at hm
    have := (List.mem_filter.mp hm).2
    simpa using this
  · intro s hs
    simp only [deleteClient] at hs
    have := (List.mem_filter.mp hs).2
    rw [Bool.not_eq_true'] at this
    exact key _ this
  · intro p hp
    simp only [deleteClient] at hp
    have := (List.mem_filter.mp hp).2
    rw [Bool.not_eq_true'] at this
    exact key _ this
  · intro t ht
    simp only [deleteClient] at ht
    have := (List.mem_filter.mp ht).2
    rw [Bool.not_eq_true'] at this
    exact key _ this

/-- Witness for C2 at a concrete input: deleting client 1, which has a
service, a payment and a task. -/
theorem deleteClient_cascade_witness :
    exDbFull.clients.any (fun c => c.id == 1) = true
    ∧ (∀ s ∈ (deleteClient exDbFull 1).services, s.client_id ≠ 1)
    ∧ (∀ p ∈ (deleteClient exDbFull 1).payments, p.client_id ≠ 1) := by
  have main := deleteClient_cascade exDbFull 1 (by decide)
  exact ⟨by decide, main.2.1, main.2.2.1⟩

/-- C6: updating a client with a supplied services list atomically replaces
that client's service rows with exactly the supplied list — a subsequent query
of the client's services returns exactly the supplied types, regardless of
prior contents — while other clients' service rows and all other tables are
untouched. -/
theorem updateClient_replaces_services (db : DB) (cid : Nat) (name : String)
    (email phone company notes managed_by : Option String) (svcs : List String) :
    ((updateClient db cid name email phone company notes managed_by (some svcs)).services.filter
          (fun s => s.client_id == cid)).map (fun s => s.service_type) = svcs
    ∧ (updateClient db cid name email phone company notes managed_by (some svcs)).services.filter
          (fun s => !(s.client_id == cid)) =
        db.services.filter (fun s => !(s.client_id == cid))
    ∧ (updateClient db cid name email phone company notes managed_by (some svcs)).payments =
        db.payments
    ∧ (updateClient db cid name email phone company notes managed_by (some svcs)).tasks =
        db.tasks
    ∧ (updateClient db cid name email phone company notes managed_by (some svcs)).transactions =
        db.transactions := by
  have hsvc : (updateClient db cid name email phone company notes managed_by (some svcs)).services
      = db.services.filter (fun s => !(s.client_id == cid)) ++
          insertServices cid db.nextServiceId svcs := by
    simp [updateClient]
  refine ⟨?_, ?_, rfl, rfl, rfl⟩
  · rw [hsvc, List.filter_append, filter_not_filter, insertServices_filter_self,
      List.nil_append, insertServices_map_service_type]
  · rw [hsvc, List.filter_append, filter_not_idem, insertServices_filter_ne,
      List.append_nil]

/-! ### C8: task listing order -/

theorem taskKeyLt_asymm (a b : TaskView) (h : taskKeyLt a b = true) :
    taskKeyLt b a = false := by
  unfold taskKeyLt at h ⊢
  cases hda : a.task.due_date with
  | none =>
    cases hdb : b.task.due_date with
    | none =>
      rw [hda, hdb] at h
      have h' : strLtB b.task.created_at a.task.created_at = true := h
      show strLtB a.task.created_at b.task.created_at = false
      exact strLtB_asymm _ _ h'
    | some y => rfl
  | some x =>
    cases hdb : b.task.due_date with
    | none =>
      rw [hda, hdb] at h
      have h' : false = true := h
      exact absurd h' (by decide)
    | some y =>
      rw [hda, hdb] at h
      have h' : (if strLtB x y = true then true
                 else if strLtB y x = true then false
                 else strLtB b.task.created_at a.task.created_at) = true := h
      show (if strLtB y x = true then true
            else if strLtB x y = true then false
            else strLtB a.task.created_at b.task.created_at) = false
      by_cases hxy : strLtB x y = true
      · have hyx : strLtB y x = false := strLtB_asymm _ _ hxy
        rw [if_neg (by rw [hyx]; decide), if_pos hxy]
      · rw [if_neg hxy] at h'
        by_cases hyx : strLtB y x = true
        · rw [if_pos hyx] at h'
          exact absurd h' (by decide)
        · rw [if_neg hyx] at h'
          rw [if_neg hyx, if_neg hxy]
          exact strLtB_asymm _ _ h'

theorem taskLE_total (a b : TaskView) : taskLE a b = true ∨ taskLE b a = true := by
  unfold taskLE
  by_cases h : taskKeyLt b a = true
  · right
    rw [taskKeyLt_asymm b a h]
    rfl
  · left
    rw [Bool.not_eq_true] at h
    rw [h]
    rfl

/-- C8 (amended): `GET /api/tasks?clientId=` returns only rows of the requested
client, ordered by due_date ascending with NULL/unset due dates sorting FIRST
(SQLite `ASC` places `NULL` before every value), with creation time descending
as tie-break among equal or absent due dates. -/
theorem listTasks_ordered (db : DB) (cido : Option Nat) :
    List.Chain' (fun a b => taskLE a b = true) (listTasks db cido)
    ∧ (∀ cid, cido = some cid → ∀ v ∈ listTasks db cido, v.task.client_id = cid) := by
  constructor
  · simp only [listTasks]
    exact chain'_sortByList taskLE taskLE_total _
  · rintro cid rfl v hv
    simp only [listTasks] at hv
    have hv' := (mem_sortByList taskLE v _).mp hv
    have := (List.mem_filter.mp hv').2
    simpa using this

/-- Witness for C8 at a concrete input: a member of the filtered listing
belongs to the requested client. -/
theorem listTasks_ordered_witness :
    (⟨exTaskNull, "A"⟩ : TaskView).task.client_id = 1 := by
  have heq : listTasks exDbTasks (some 1) = [⟨exTaskNull, "A"⟩, ⟨exTaskDated, "A"⟩] := rfl
  have hv : (⟨exTaskNull, "A"⟩ : TaskView) ∈ listTasks exDbTasks (some 1) := by
    rw [heq]
    exact List.mem_cons_self _ _
  exact (listTasks_ordered exDbTasks (some 1)).2 1 rfl _ hv

/-- C8 as stated is false: SQLite sorts NULL first under `ASC`, so the task
without a due date is returned before the dated one, not after it. -/
theorem listTasks_nulls_first_counterex :
    listTasks exDbTasks (some 1) = [⟨exTaskNull, "A"⟩, ⟨exTaskDated, "A"⟩]
    ∧ exTaskNull.due_date = none
    ∧ exTaskDated.due_date = some "2024-03-01" := by
  exact ⟨rfl, rfl, rfl⟩

/-! ### C9: the stats trend strings -/

theorem empty_append_str (s : String) : "" ++ s = s := by
  cases s with
  | mk d => rfl

theorem calculateTrend_eq_spec (c : ℚ) (po : Option ℚ) :
    calculateTrend c (po.getD 0) = specTrend c po := by
  cases po with
  | none => simp [calculateTrend, specTrend]
  | some p =>
    by_cases hp : p = 0
    · simp [calculateTrend, specTrend, hp]
    · simp only [Option.getD_some, calculateTrend, specTrend, if_neg hp, toFixed1]
      rcases le_or_lt 0 ((c - p) / p * 100) with hd | hd
      · simp only [if_pos hd, if_neg (not_lt.mpr hd), abs_of_nonneg hd]
      · simp only [if_neg (not_le.mpr hd), if_pos hd, abs_of_neg hd, empty_append_str]

theorem calculateTrend_cast_bridge (cur : ℚ) (o : Option Int) :
    calculateTrend cur (((o.getD 0 : Int) : ℚ)) = specTrend cur (o.map (fun n => (n : ℚ))) := by
  rw [← calculateTrend_eq_spec cur (o.map (fun n => (n : ℚ)))]
  congr 1
  cases o <;> simp

/-- C9: each trend value of `GET /api/stats` equals the spec formula —
(current − previous) / previous × 100, formatted with an explicit sign, one
decimal place and a percent suffix — except that a zero or absent
previous-period value yields the string "+100%" unconditionally; in
particular, a database with no clients created before the cutoff reports
"+100%" for the revenue and received trends whatever the current values. -/
theorem statsTrend_matches_spec (c : ℚ) (po : Option ℚ) (db : DB) (cutoff : String) :
    calculateTrend c (po.getD 0) = specTrend c po
    ∧ statsRevenueTrend db cutoff =
        specTrend
          (((sqlSum (paymentVals db (fun _ => true) (fun p => p.total_amount))).getD 0 : Int) : ℚ)
          ((sqlSum (paymentVals db (fun cl => strLtB cl.created_at cutoff)
              (fun p => p.total_amount))).map (fun n => (n : ℚ)))
    ∧ statsReceivedTrend db cutoff =
        specTrend
          (((sqlSum (paymentVals db (fun _ => true) (fun p => p.advance_paid))).getD 0 : Int) : ℚ)
          ((sqlSum (paymentVals db (fun cl => strLtB cl.created_at cutoff)
              (fun p => p.advance_paid))).map (fun n => (n : ℚ)))
    ∧ (db.clients.filter (fun cl => strLtB cl.created_at cutoff) = [] →
        statsRevenueTrend db cutoff = "+100%" ∧ statsReceivedTrend db cutoff = "+100%") := by
  have hprev : ∀ f : PaymentRow → Int,
      db.clients.filter (fun cl => strLtB cl.created_at cutoff) = [] →
        paymentVals db (fun cl => strLtB cl.created_at cutoff) f = [] := by
    intro f hf
    unfold paymentVals
    rw [hf]
    rfl
  refine ⟨calculateTrend_eq_spec c po, ?_, ?_, ?_⟩
  · exact calculateTrend_cast_bridge _ _
  · exact calculateTrend_cast_bridge _ _
  · intro hf
    constructor
    · unfold statsRevenueTrend
      rw [hprev _ hf]
      simp [sqlSum, calculateTrend]
    · unfold statsReceivedTrend
      rw [hprev _ hf]
      simp [sqlSum, calculateTrend]

/-- Witness for C9 at a concrete input: the empty database has no clients
before the cutoff and reports "+100%" trends. -/
theorem statsTrend_matches_spec_witness :
    statsRevenueTrend exDbEmpty "2025-01-01 00:00:00" = "+100%"
    ∧ statsReceivedTrend exDbEmpty "2025-01-01 00:00:00" = "+100%" := by
  have main := statsTrend_matches_spec 0 none exDbEmpty "2025-01-01 00:00:00"
  exact main.2.2.2 rfl

/-! ### C10: the services field of the client listing -/

theorem str_eq_empty_iff (t : String) : t = "" ↔ t.data = [] := by
  constructor
  · intro h
    rw [h]
  · intro h
    cases t with
    | mk d =>
      have h' : d = [] := h
      subst h'
      rfl

theorem map_data_eq_single_nil_iff (ts : List String) :
    ts.map String.data = [[]] ↔ ts = [""] := by
  cases ts with
  | nil => simp
  | cons t rest =>
    cases rest with
    | nil =>
      simp only [List.map_cons, List.map_nil, List.cons_eq_cons, and_true]
      rw [← str_eq_empty_iff]
    | cons u us =>
      constructor
      · intro h
        exact absurd (congrArg List.length h) (by simp)
      · intro h
        exact absurd (congrArg List.length h) (by simp)

theorem servicesArr_eq_nil_iff (ts : List String) :
    servicesArr (groupConcatTypes ts) = [] ↔ (ts = [] ∨ ts = [""]) := by
  cases ts with
  | nil => simp [groupConcatTypes, servicesArr]
  | cons t rest =>
    simp only [groupConcatTypes, servicesArr]
    by_cases hj : joinCommaL ((t :: rest).map String.data) = []
    · rw [if_pos hj]
      have h1 : (t :: rest).map String.data = [[]] :=
        (joinCommaL_eq_nil_iff _ (by simp)).mp hj
      have h2 : t :: rest = [""] := (map_data_eq_single_nil_iff _).mp h1
      simp [h2]
    · rw [if_neg hj]
      constructor
      · intro hc
        have : jsSplitL (joinCommaL ((t :: rest).map String.data)) = [] :=
          List.map_eq_nil_iff.mp hc
        exact absurd this (jsSplitL_ne_nil _)
      · rintro (h1 | h1)
        · cases h1
        · rw [h1] at hj
          exact absurd rfl hj

theorem servicesArr_length (ts : List String) :
    (servicesArr (groupConcatTypes ts)).length =
      if ts = [] ∨ ts = [""] then 0
      else ts.length + (ts.map (fun t => t.data.count ',')).sum := by
  by_cases h0 : ts = [] ∨ ts = [""]
  · rw [if_pos h0, List.length_eq_zero]
    exact (servicesArr_eq_nil_iff ts).mpr h0
  · rw [if_neg h0]
    push_neg at h0
    obtain ⟨hne, hne1⟩ := h0
    cases ts with
    | nil => exact absurd rfl hne
    | cons t rest =>
      simp only [groupConcatTypes, servicesArr]
      have hj : joinCommaL ((t :: rest).map String.data) ≠ [] := by
        intro hc
        have h1 := (joinCommaL_eq_nil_iff _ (by simp)).mp hc
        exact hne1 ((map_data_eq_single_nil_iff _).mp h1)
      rw [if_neg hj, List.length_map, length_jsSplitL, count_joinCommaL _ (by simp)]
      have hcomp : ((t :: rest).map String.data).map (fun l => l.count ',') =
          (t :: rest).map (fun u => u.data.count ',') := by
        rw [List.map_map]
        rfl
      rw [hcomp, List.length_map]
      simp only [List.length_cons]
      omega

/-- C10 (amended): each `GET /api/clients` row's services array is the
client's service_type values comma-concatenated and then comma-split, with
JavaScript falsiness collapsing an empty concatenation: the array is empty
exactly when the client has no service rows or a single one whose
service_type is the empty string, and otherwise its length is the number of
service rows plus the number of commas occurring inside the service_type
values — so it equals the row count precisely when no service_type contains a
comma, and a comma-holding service_type is returned as multiple entries. -/
theorem listClients_services_field (db : DB) (v : ClientView) (hv : v ∈ listClients db) :
    v.services = servicesArr (groupConcatTypes (serviceTypesOf db v.client.id))
    ∧ (v.services = [] ↔
        (serviceTypesOf db v.client.id = [] ∨ serviceTypesOf db v.client.id = [""]))
    ∧ v.services.length =
        (if serviceTypesOf db v.client.id = [] ∨ serviceTypesOf db v.client.id = [""] then 0
         else (serviceTypesOf db v.client.id).length +
           ((serviceTypesOf db v.client.id).map (fun t => t.data.count ',')).sum) := by
  have h2 := (mem_listClients db v hv).2
  refine ⟨h2, ?_, ?_⟩
  · rw [h2]
    exact servicesArr_eq_nil_iff _
  · rw [h2]
    exact servicesArr_length _

/-- Witness for C10 at a concrete input: the client with the single "web"
service row. -/
theorem listClients_services_field_witness :
    ((⟨exClient1, ["web"], some exPay, 1⟩ : ClientView).services = [] ↔
      (serviceTypesOf exDbFull exClient1.id = []
        ∨ serviceTypesOf exDbFull exClient1.id = [""])) := by
  have hv : (⟨exClient1, ["web"], some exPay, 1⟩ : ClientView) ∈ listClients exDbFull := by
    have heq : listClients exDbFull = [⟨exClient1, ["web"], some exPay, 1⟩] := rfl
    rw [heq]
    exact List.mem_cons_self _ _
  exact (listClients_services_field exDbFull _ hv).2.1

/-- C10 as stated is false in its emptiness clause: a client whose single
service row has the empty string as its service_type is returned with an
empty services array even though it has one service row. -/
theorem listClients_empty_type_counterex :
    (listClients exDbSvcEmpty).map (fun v => v.services) = [[]]
    ∧ (exDbSvcEmpty.services.filter (fun s => s.client_id == 1)).length = 1
    ∧ exDbSvcEmpty.clients = [exClient1] := by
  exact ⟨rfl, rfl, rfl⟩
